import Mathlib

/-!
Verification of the SubTracker reconciliation engine.

This file is a shallow embedding, in Lean 4, of the business logic of the
SubTracker backend that the specification describes:

* the event processor `processSubscriptionData` and its helpers
  (`Backend/services/subscriptionService.js`),
* the read-time renewal projection of `getUserSubscriptions`
  (same file, lines 299-337),
* the recurring-pattern detector `detectRecurringPattern` and the
  cross-source matcher `matchTransactionWithEmails`
  (`Backend/services/transactionMatcher.js`),
* the already-processed-email skip set built by the e-mail scan loops
  (`Backend/Routes/Subscriptions.js`, `Backend/services/bankScheduler.js`).

Modelling conventions, chosen so that every definition is executable and
kernel-reducible:

* JavaScript `Date` values are modelled by `JDate`: an absolute month
  number `am = 12 * year + monthIndex` (month index 0-11, as in JS), a
  1-based day of month `d`, and the milliseconds elapsed within the day
  `ms`.  `toMs` converts a `JDate` to the epoch-style millisecond count
  that JS `Date` comparisons use; `Date` comparison operators are
  modelled by comparing `toMs` values.  `setMonth` / `setFullYear` /
  `setDate` arithmetic, including JS day-of-month overflow (Jan 31 +
  1 month = Mar 2/3), is modelled by `fixDay`.
* Money amounts are in exact integer cents (`Nat`).  The JS code
  compares floating-point dollar amounts; every comparison
  `a * 0.95 <= p` is modelled by the exact equivalent
  `95 * a ≤ 100 * p`, and `x.toFixed(2)` / `x.toFixed(0)` are modelled
  on cents by `amountFixed2` / `amountFixed0`.
* The float mean-interval computation `(Σ intervals / n) / 86400000`
  compared against a band `lo ≤ days ≤ hi` is modelled by the exact
  cross-multiplied comparison `lo * n * 86400000 ≤ Σ ∧ Σ ≤ hi * n * 86400000`
  (n > 0 on the branch where it is used).
* JS string operations (`toLowerCase`, `includes`, `split(/\s+/)`,
  regexes) are modelled as executable functions on `List Char`:
  `lowerChars`, `containsChars`, `splitWs`, and a tiny matcher
  `chrPrefixWild`/`containsPattern` in which `'.'` matches any
  character, exactly like the unescaped dot of the JS `RegExp` built
  from `amount.toFixed(2)`.
* Persistence (`Mongoose`) is modelled functionally: a document is a
  record, an update is a function from the record to the new record,
  and a `throw` is `Except.error`.  `null`/absent fields are `Option`;
  the `updateData.cancellationDate !== undefined` check of
  `updateSubscription` is modelled with a nested `Option (Option _)`
  (outer `none` = field not part of the update, `some none` = update
  to `null`).  `null` and `undefined` are collapsed for plain data
  fields where the code never distinguishes them.
* JS `x || y` on amounts/strings (where `0` and `""` are falsy) is
  modelled by `jsOrNat` / `jsOrStr` / `jsOrOptStr`.
-/

set_option maxRecDepth 40000

/-! ## Calendar model of JavaScript dates -/

/-- JS `Date` at the granularity the engine uses: absolute month
`am = 12 * fullYear + monthIndex`, 1-based day `d`, milliseconds within
the day `ms`. -/
structure JDate where
  am : Nat
  d : Nat
  ms : Nat
deriving DecidableEq

/-- Gregorian leap-year rule, as used by JS `Date`. -/
def isLeapYear (y : Nat) : Bool := y % 4 = 0 && (y % 100 != 0 || y % 400 = 0)

/-- Length of the month with absolute month number `am` (month index
`am % 12`, 0-based as in JS: February is index 1; April, June,
September, November are 3, 5, 8, 10). -/
def daysInMonth (am : Nat) : Nat :=
  if am % 12 = 1 then (if isLeapYear (am / 12) then 29 else 28)
  else if am % 12 = 3 ∨ am % 12 = 5 ∨ am % 12 = 8 ∨ am % 12 = 10 then 30 else 31

/-- Number of days from the calendar origin (year 0, month 0, day 1) to
the first day of absolute month `am`. -/
def monthStart : Nat → Nat
  | 0 => 0
  | n + 1 => monthStart n + daysInMonth n

/-- Milliseconds per day. -/
def dayMs : Nat := 86400000

/-- Day number of a `JDate` from the calendar origin. -/
def dayNumber (p : JDate) : Nat := monthStart p.am + (p.d - 1)

/-- The millisecond timestamp of a `JDate`; JS `Date` comparison
operators compare these values. -/
def toMs (p : JDate) : Nat := dayNumber p * dayMs + p.ms

/-- JS `a < b` on two `Date`s. -/
def jlt (a b : JDate) : Prop := toMs a < toMs b

instance (a b : JDate) : Decidable (jlt a b) := by unfold jlt; exact inferInstance

/-- Boolean form of `jlt`, used inside the embedded code. -/
def jltB (a b : JDate) : Bool := decide (jlt a b)

/-- A well-formed `JDate`: the day exists in its month and `ms` is
within one day. -/
def validJ (p : JDate) : Prop := 1 ≤ p.d ∧ p.d ≤ daysInMonth p.am ∧ p.ms < dayMs

instance (p : JDate) : Decidable (validJ p) := by unfold validJ; exact inferInstance

/-- JS day-of-month normalisation: a nominal (month, day) pair in which
the day may exceed the month length rolls into the following month.
For every operation in this development the nominal day is at most 38,
so a single roll suffices, exactly as for JS `setMonth`/`setDate`/
`setFullYear` on a previously valid date. -/
def fixDay (am d ms : Nat) : JDate :=
  if d ≤ daysInMonth am then ⟨am, d, ms⟩ else ⟨am + 1, d - daysInMonth am, ms⟩

/-- JS `date.setMonth(date.getMonth() + k)`. -/
def addMonthsJS (p : JDate) (k : Nat) : JDate := fixDay (p.am + k) p.d p.ms

/-- JS `date.setDate(date.getDate() + k)` for small `k`. -/
def addDaysJS (p : JDate) (k : Nat) : JDate := fixDay p.am (p.d + k) p.ms

/-- JS `date.setMonth(date.getMonth() - k)` (used for the 6-month
lookback window of the pattern detector). -/
def subMonthsJS (p : JDate) (k : Nat) : JDate := fixDay (p.am - k) p.d p.ms

/-! ## Data model

`Subscription` keeps exactly the fields of the Mongoose schema that the
embedded logic reads or writes; `frequency` and `status` come from the
schema enums (`frequency` is kept as the literal schema string since the
projection loop switches on it). -/

inductive SubStatus where
  | active
  | cancelled
deriving DecidableEq

structure Subscription where
  companyName : String
  price : Nat
  currency : String
  startDate : JDate
  nextRenewalDate : Option JDate := none
  cancellationDate : Option JDate := none
  accessEndDate : Option JDate := none
  status : SubStatus := .active
  frequency : String := "monthly"
  planName : Option String := none
  sourceEmailId : Option String := none
  sourceEmailDate : Option JDate := none
deriving DecidableEq

/-- The AI-extracted evidence passed to `processSubscriptionData`
(`extractedData` in the source).  `eventType` is the raw string the
switch statement dispatches on. -/
structure ExtractedData where
  eventType : String
  serviceName : String
  amount : Option Nat := none
  currency : Option String := none
  startDate : Option JDate := none
  nextBillingDate : Option JDate := none
  cancellationDate : Option JDate := none
  planName : Option String := none
deriving DecidableEq

/-- The `emailInfo` argument of `processSubscriptionData`. -/
structure EmailInfo where
  id : String
  date : Option JDate := none
deriving DecidableEq

/-- JS `a || b` where `a` is a nullable number and `0` is falsy. -/
def jsOrNat (a : Option Nat) (b : Nat) : Nat :=
  match a with
  | some x => if x = 0 then b else x
  | none => b

/-- JS `a || b` where `a` is a nullable string and `""` is falsy. -/
def jsOrStr (a : Option String) (b : String) : String :=
  match a with
  | some x => if x = "" then b else x
  | none => b

/-- JS `a || b` for two nullable strings. -/
def jsOrOptStr (a b : Option String) : Option String :=
  match a with
  | some x => if x = "" then b else some x
  | none => b

/-! ## Event processor (`subscriptionService.js`) -/

/-- The `$set` payload of `updateSubscription`.  The conditionally added
fields (`status`, `cancellationDate`, `accessEndDate`) are `none` when
the caller did not put them into the update. -/
structure UpdateData where
  price : Nat
  currency : String
  nextRenewalDate : Option JDate
  planName : Option String
  sourceEmailId : String
  sourceEmailDate : JDate
  status : Option SubStatus := none
  cancellationDate : Option (Option JDate) := none
  accessEndDate : Option (Option JDate) := none

/-- `updateSubscription` (source lines 61-86): `$set` of the given
fields on the stored document. -/
def updateSubscription (sub : Subscription) (u : UpdateData) : Subscription :=
  { sub with
    price := u.price
    currency := u.currency
    nextRenewalDate := u.nextRenewalDate
    planName := u.planName
    sourceEmailId := some u.sourceEmailId
    sourceEmailDate := some u.sourceEmailDate
    status := u.status.getD sub.status
    cancellationDate := u.cancellationDate.getD sub.cancellationDate
    accessEndDate := u.accessEndDate.getD sub.accessEndDate }

/-- `cancelSubscription` (source lines 94-114). -/
def cancelSubscription (sub : Subscription) (cancellationDate accessEndDate : JDate)
    (sourceEmailId : String) (sourceEmailDate : JDate) : Subscription :=
  { sub with
    status := .cancelled
    cancellationDate := some cancellationDate
    accessEndDate := some accessEndDate
    sourceEmailId := some sourceEmailId
    sourceEmailDate := some sourceEmailDate }

/-- `createSubscription` (source lines 32-53); `frequency` takes the
schema default `"monthly"`, `status` is passed by every caller. -/
def createSubscription (companyName : String) (price : Nat) (currency : String)
    (startDate : JDate) (nextRenewalDate : Option JDate)
    (cancellationDate accessEndDate : Option JDate) (status : SubStatus)
    (planName : Option String) (sourceEmailId : String) (sourceEmailDate : JDate) :
    Subscription :=
  { companyName := companyName
    price := price
    currency := currency
    startDate := startDate
    nextRenewalDate := nextRenewalDate
    cancellationDate := cancellationDate
    accessEndDate := accessEndDate
    status := status
    frequency := "monthly"
    planName := planName
    sourceEmailId := some sourceEmailId
    sourceEmailDate := some sourceEmailDate }

/-- The staleness guard of `processSubscriptionData` (source lines
139-145): an existing subscription with a recorded `sourceEmailDate`
rejects strictly older non-cancellation evidence. -/
def staleGuard (x : ExtractedData) (emailDate : JDate) (sub : Subscription) : Bool :=
  match sub.sourceEmailDate with
  | some d => (x.eventType != "cancellation") && jltB emailDate d
  | none => false

/-- `processSubscriptionData` (source lines 123-281) for a single
identity.  Identity resolution (`findExistingSubscription`) is
abstracted into the `existing` argument: evidence for the same identity
resolves to the current record for that identity, or `none`.  `now` is
the clock value used for every `new Date()` fallback.  The JS switch is
written as an if-chain inside a match on `existing`; the staleness
guard, which in the source runs before the switch, can only fire when
`existing` is present, so the restructuring is behaviour-preserving.
A thrown `Error` is `Except.error` of its message. -/
def processSubscriptionData (now : JDate) (existing : Option Subscription)
    (x : ExtractedData) (e : EmailInfo) : Except String Subscription :=
  let emailDate := e.date.getD now
  let parsedStartDate := x.startDate.getD emailDate
  match existing with
  | some sub =>
    if staleGuard x emailDate sub then
      .ok sub
    else if x.eventType = "start" then
      .ok (updateSubscription sub
        { price := jsOrNat x.amount sub.price
          currency := jsOrStr x.currency sub.currency
          nextRenewalDate := x.nextBillingDate
          planName := x.planName
          sourceEmailId := e.id
          sourceEmailDate := emailDate
          status := if sub.status = .cancelled then some .active else none
          cancellationDate := if sub.status = .cancelled then some none else none
          accessEndDate := if sub.status = .cancelled then some none else none })
    else if x.eventType = "renewal" then
      .ok (updateSubscription sub
        { price := jsOrNat x.amount sub.price
          currency := jsOrStr x.currency sub.currency
          nextRenewalDate := x.nextBillingDate
          planName := jsOrOptStr x.planName sub.planName
          sourceEmailId := e.id
          sourceEmailDate := emailDate
          status := if sub.status = .cancelled then some .active else none
          cancellationDate := if sub.status = .cancelled then some none else none
          accessEndDate := if sub.status = .cancelled then some none else none })
    else if x.eventType = "cancellation" then
      if (match sub.sourceEmailDate, x.cancellationDate with
          | some d, some c => jltB c d
          | _, _ => false) then
        .ok sub
      else
        .ok (cancelSubscription sub (x.cancellationDate.getD now)
          (x.cancellationDate.getD now) e.id emailDate)
    else if x.eventType = "change" then
      .ok (updateSubscription sub
        { price := jsOrNat x.amount sub.price
          currency := jsOrStr x.currency sub.currency
          nextRenewalDate := x.nextBillingDate
          planName := jsOrOptStr x.planName sub.planName
          sourceEmailId := e.id
          sourceEmailDate := emailDate })
    else
      .error ("Unknown event type: " ++ x.eventType)
  | none =>
    if x.eventType = "start" ∨ x.eventType = "renewal" then
      .ok (createSubscription x.serviceName (jsOrNat x.amount 0)
        (jsOrStr x.currency "USD") parsedStartDate x.nextBillingDate
        none none .active x.planName e.id emailDate)
    else if x.eventType = "cancellation" then
      .ok (createSubscription x.serviceName (jsOrNat x.amount 0)
        (jsOrStr x.currency "USD") parsedStartDate none
        (some (x.cancellationDate.getD now)) (some (x.cancellationDate.getD now))
        .cancelled x.planName e.id emailDate)
    else if x.eventType = "change" then
      .ok (createSubscription x.serviceName (jsOrNat x.amount 0)
        (jsOrStr x.currency "USD") parsedStartDate x.nextBillingDate
        none none .active x.planName e.id emailDate)
    else
      .error ("Unknown event type: " ++ x.eventType)

/-- The subscription state for one identity after one call of
`processSubscriptionData`: a thrown error performs no write, so the
state is unchanged (the source throws before any create/update in the
unknown-event case). -/
def applyState (now : JDate) (s : Option Subscription) (x : ExtractedData)
    (e : EmailInfo) : Option Subscription :=
  match processSubscriptionData now s x e with
  | .ok sub => some sub
  | .error _ => s

/-! ## Read-time renewal projection (`getUserSubscriptions`, lines 299-337) -/

/-- One step of the renewal walk: the `switch (sub.frequency)` body of
both projection loops (`weekly` += 7 days, `yearly` += 1 year, default
-- including `monthly` and `unknown` -- += 1 month). -/
def stepRenewal (freq : String) (p : JDate) : JDate :=
  if freq = "weekly" then addDaysJS p 7
  else if freq = "yearly" then addMonthsJS p 12
  else addMonthsJS p 1

/-- The bounded catch-up loop
`while (renewal < now && iterations < cap) { step; iterations++ }`,
with the remaining iteration budget as fuel. -/
def rollForward (freq : String) (now : JDate) : Nat → JDate → JDate
  | 0, p => p
  | fuel + 1, p =>
    if jltB p now then rollForward freq now fuel (stepRenewal freq p) else p

/-- The per-subscription body of the projection loop of
`getUserSubscriptions`: non-active subscriptions are skipped
(`continue`) untouched; an active subscription with no
`nextRenewalDate` gets one backfilled from `startDate` (cap 120); an
active subscription with an overdue `nextRenewalDate` gets it rolled
forward (cap 24).  `startDate` is a required schema field, so the JS
truthiness test `sub.startDate` always passes. -/
def projectSub (now : JDate) (s : Subscription) : Subscription :=
  if s.status ≠ .active then s
  else
    match s.nextRenewalDate with
    | none => { s with nextRenewalDate := some (rollForward s.frequency now 120 s.startDate) }
    | some r =>
      if jltB r now then { s with nextRenewalDate := some (rollForward s.frequency now 24 r) }
      else s

/-- The list returned by `getUserSubscriptions` for an already-fetched
(and, when `options.status` was given, already-filtered) list of stored
subscriptions: every element passes through the projection body. -/
def listSubscriptions (now : JDate) (subs : List Subscription) : List Subscription :=
  subs.map (projectSub now)

/-! ## Executable character-list models of the JS string operations -/

/-- JS `s.toLowerCase()` as a character list. -/
def lowerChars (s : String) : List Char := s.data.map Char.toLower

/-- Literal prefix test on character lists. -/
def chrPrefix : List Char → List Char → Bool
  | [], _ => true
  | _ :: _, [] => false
  | p :: ps, c :: cs => p == c && chrPrefix ps cs

/-- JS `hay.includes(needle)` on character lists. -/
def containsChars (needle hay : List Char) : Bool :=
  hay.tails.any (fun t => chrPrefix needle t)

/-- Prefix test in which `'.'` in the pattern matches any character:
the unescaped regex dot of the amount patterns in
`matchTransactionWithEmails`. -/
def chrPrefixWild : List Char → List Char → Bool
  | [], _ => true
  | _ :: _, [] => false
  | p :: ps, c :: cs => (p == '.' || p == c) && chrPrefixWild ps cs

/-- `new RegExp(pat).test(hay)` for a pattern of literal characters and
unescaped dots. -/
def containsPattern (pat hay : List Char) : Bool :=
  hay.tails.any (fun t => chrPrefixWild pat t)

/-- `s.split(/\s+/)`, already lower-cased; empty fragments are produced
at consecutive separators exactly as by JS `split` on a single
whitespace character, and are removed by every `length > 2` filter
applied to the result. -/
def splitWsAux : List Char → List Char → List (List Char)
  | [], acc => [acc.reverse]
  | c :: cs, acc =>
    if c.isWhitespace then acc.reverse :: splitWsAux cs [] else splitWsAux cs (c :: acc)

def splitWs (l : List Char) : List (List Char) := splitWsAux l []

/-! ## Recurring pattern detector (`transactionMatcher.js`, lines 10-75) -/

/-- The fields of a `PotentialSubscription` document that
`detectRecurringPattern` queries. -/
structure PotentialSub where
  merchantName : String
  amount : Nat
  transactionDate : JDate
  confidence : String
deriving DecidableEq

/-- The Mongo `$regex: new RegExp(pat, 'i')` match used for merchant
names: the pattern occurs, case-insensitively, somewhere in the stored
name (merchant names are taken to contain no regex metacharacters). -/
def merchantRegexMatches (pat stored : String) : Bool :=
  containsChars (lowerChars pat) (lowerChars stored)

/-- Ascending insertion used to model `.sort((a, b) => a - b)` on the
millisecond timestamps. -/
def insertAsc (x : Nat) : List Nat → List Nat
  | [] => [x]
  | y :: ys => if x ≤ y then x :: y :: ys else y :: insertAsc x ys

def sortAsc : List Nat → List Nat
  | [] => []
  | x :: xs => insertAsc x (sortAsc xs)

/-- The occurrence timestamps gathered by `detectRecurringPattern`
(lines 12-34): matching `PotentialSubscription` transactions of the
last 6 months with amount within the exact ±5% band and confidence
`confirmed`/`potential`, plus the `startDate` of matching existing
subscriptions in the same amount band (no date or confidence filter on
those), merged and sorted ascending.  Note the current transaction's
own date is NOT appended. -/
def gatherOccurrences (pots : List PotentialSub) (subs : List Subscription)
    (merchantName : String) (amount : Nat) (transactionDate : JDate) : List Nat :=
  let sixMonthsAgo := subMonthsJS transactionDate 6
  let sims := pots.filter (fun p =>
    merchantRegexMatches merchantName p.merchantName &&
    decide (95 * amount ≤ 100 * p.amount) && decide (100 * p.amount ≤ 105 * amount) &&
    decide (toMs sixMonthsAgo ≤ toMs p.transactionDate) &&
    (p.confidence == "confirmed" || p.confidence == "potential"))
  let exSubs := subs.filter (fun s =>
    merchantRegexMatches merchantName s.companyName &&
    decide (95 * amount ≤ 100 * s.price) && decide (100 * s.price ≤ 105 * amount))
  sortAsc (sims.map (fun p => toMs p.transactionDate) ++ exSubs.map (fun s => toMs s.startDate))

/-- Result shape of `detectRecurringPattern`. -/
structure RecurringPattern where
  detected : Bool
  frequency : String
  occurrences : Nat
deriving DecidableEq

/-- Consecutive gaps `occ[i] - occ[i-1]` of the sorted timestamp
list. -/
def gapsOf : List Nat → List Nat
  | a :: b :: rest => (b - a) :: gapsOf (b :: rest)
  | _ => []

/-- `lo <= (s / n) / 86400000 && (s / n) / 86400000 <= hi` (mean gap in
days inside the band), cross-multiplied into exact integer arithmetic;
`n` is positive wherever this is used. -/
def meanInDayBand (lo hi s n : Nat) : Bool :=
  decide (lo * (n * dayMs) ≤ s) && decide (s ≤ hi * (n * dayMs))

/-- The band classifier of `detectRecurringPattern` (lines 46-53),
applied to the sum and count of the consecutive intervals. -/
def classifyGaps (s n : Nat) : String :=
  if meanInDayBand 25 35 s n then "monthly"
  else if meanInDayBand 350 380 s n then "yearly"
  else if meanInDayBand 6 8 s n then "weekly"
  else "unknown"

/-- `detectRecurringPattern` (lines 10-75) as a function of the queried
documents: fewer than 2 gathered prior occurrences yield
`detected = false, "unknown", 1`; otherwise the mean consecutive
interval is classified and `occurrences` is the prior count plus 1. -/
def detectRecurringPattern (pots : List PotentialSub) (subs : List Subscription)
    (merchantName : String) (amount : Nat) (transactionDate : JDate) : RecurringPattern :=
  let allOccurrences := gatherOccurrences pots subs merchantName amount transactionDate
  if 2 ≤ allOccurrences.length then
    let intervals := gapsOf allOccurrences
    ⟨true, classifyGaps intervals.sum intervals.length, allOccurrences.length + 1⟩
  else
    ⟨false, "unknown", 1⟩

/-! ## Cross-source matcher (`transactionMatcher.js`, lines 80-138) -/

/-- One fetched e-mail, as consumed by the matcher. -/
structure EmailDoc where
  id : String
  subject : String
  text : String
  date : JDate
deriving DecidableEq

/-- `merchantName.toLowerCase().split(/\s+/).filter(w => w.length > 2)`. -/
def merchantKeywords (merchantName : String) : List (List Char) :=
  (splitWs (lowerChars merchantName)).filter (fun w => 2 < w.length)

/-- Decimal digits of a natural number (for building the amount
strings). -/
def amountFixed2Chars (cents : Nat) : List Char :=
  (toString (cents / 100)).data ++ '.' :: (if cents % 100 < 10 then '0' :: (toString (cents % 100)).data else (toString (cents % 100)).data)

/-- `amount.toFixed(2)` for an exact-cent amount. -/
def amountFixed2 (cents : Nat) : List Char := amountFixed2Chars cents

/-- `amount.toFixed(0)` for an exact-cent amount: round half away from
zero (amounts are non-negative), per the `toFixed` specification. -/
def amountFixed0 (cents : Nat) : List Char := (toString ((cents + 50) / 100)).data

/-- The per-email match test of `matchTransactionWithEmails` (lines
101-111): the lower-cased `subject + " " + text` must contain a
merchant keyword, and must match the regex
`\$A2|A2|\$A0` (`A2 = amount.toFixed(2)`, `A0 = amount.toFixed(0)`),
in which the decimal point of `A2` is an unescaped wildcard dot. -/
def emailMatchesTransaction (merchantName : String) (amountCents : Nat)
    (em : EmailDoc) : Bool :=
  let emailText := lowerChars (em.subject ++ " " ++ em.text)
  let hasMerchant := (merchantKeywords merchantName).any (fun k => containsChars k emailText)
  let a2 := amountFixed2 amountCents
  let hasAmount := containsPattern ('$' :: a2) emailText || containsPattern a2 emailText ||
    containsPattern ('$' :: amountFixed0 amountCents) emailText
  hasMerchant && hasAmount

/-- Result shape of `matchTransactionWithEmails` (the
`alreadyProcessed` flag, which does not affect matching, is omitted). -/
structure MatchResult where
  matched : Bool
  emailId : Option String := none
  emailDate : Option JDate := none
deriving DecidableEq

/-- `matchTransactionWithEmails` (lines 80-138) over the e-mails fetched
for the ±7-day window around the transaction: the first matching e-mail
wins; no match yields `matched: false`. -/
def matchTransactionWithEmails (emails : List EmailDoc) (merchantName : String)
    (amountCents : Nat) : MatchResult :=
  match emails.find? (fun em => emailMatchesTransaction merchantName amountCents em) with
  | some em => ⟨true, some em.id, some em.date⟩
  | none => ⟨false, none, none⟩

/-- Modelled from the spec's words, for comparison with the code: an
e-mail matches when its case-folded subject+body contains a merchant
keyword of length > 2 AND contains the amount formatted as a decimal
string with two decimal places (an exact substring match). -/
def specClaimedEmailMatch (merchantName : String) (amountCents : Nat)
    (em : EmailDoc) : Bool :=
  let emailText := lowerChars (em.subject ++ " " ++ em.text)
  ((merchantKeywords merchantName).any (fun k => containsChars k emailText)) &&
    containsChars (amountFixed2 amountCents) emailText

/-- Modelled from the spec's words, for comparison with the code: the
frequency the spec's detector description assigns, classifying the mean
consecutive-day gap of the sorted prior occurrences WITH the current
occurrence date appended. -/
def specClaimedSeriesFrequency (pots : List PotentialSub) (subs : List Subscription)
    (merchantName : String) (amount : Nat) (transactionDate : JDate) : String :=
  let series := gatherOccurrences pots subs merchantName amount transactionDate ++ [toMs transactionDate]
  classifyGaps (gapsOf series).sum (gapsOf series).length

/-! ## Already-processed-email skip set (`Routes/Subscriptions.js` lines
180-199, `bankScheduler.js` lines 264-284) -/

/-- A `ProcessedEmail` ledger document (fields used by the scan). -/
structure LedgerEntry where
  emailId : String
  status : String
deriving DecidableEq

/-- `ProcessedEmail.find({ userId }).select('emailId')` -- the skip set
is built from ALL ledger entries of the user, with no filter on
`status`. -/
def processedIdsSet (entries : List LedgerEntry) : List String :=
  entries.map (fun en => en.emailId)

/-- The `processedIdsSet.has(email.id)` test that makes the scan loop
`continue` (counting the e-mail as `alreadyProcessed`) instead of
processing it. -/
def scanSkipsEmail (entries : List LedgerEntry) (emailId : String) : Bool :=
  (processedIdsSet entries).contains emailId

/-! ## Concrete instances used by witnesses and counterexamples -/

/-- An active subscription whose last applied event is day 10 of
absolute month 130 (year 10, November). -/
def sampleActiveSub : Subscription :=
  { companyName := "Spotify"
    price := 999
    currency := "USD"
    startDate := ⟨130, 1, 0⟩
    status := .active
    sourceEmailId := some "e0"
    sourceEmailDate := some ⟨130, 10, 0⟩ }

/-- A cancelled subscription whose last applied event is day 12 of
absolute month 130. -/
def sampleCancelledSub : Subscription :=
  { companyName := "Netflix"
    price := 1599
    currency := "USD"
    startDate := ⟨130, 1, 0⟩
    status := .cancelled
    cancellationDate := some ⟨130, 12, 0⟩
    accessEndDate := some ⟨130, 12, 0⟩
    sourceEmailId := some "e1"
    sourceEmailDate := some ⟨130, 12, 0⟩ }

/-- A cancellation evidence item carrying no `cancellationDate`. -/
def cancellationNoDateX : ExtractedData :=
  { eventType := "cancellation", serviceName := "Spotify" }

/-- E-mail metadata dated day 5 of month 130 -- strictly older than
`sampleActiveSub.sourceEmailDate`. -/
def olderEmailE : EmailInfo := ⟨"eC", some ⟨130, 5, 0⟩⟩

/-- Evidence with an event type outside the switch. -/
def unknownTypeX : ExtractedData :=
  { eventType := "upgrade", serviceName := "Spotify" }

/-- A prior `PotentialSubscription` occurrence on day 1 of month 130. -/
def priorPot1 : PotentialSub := ⟨"SPOTIFY", 999, ⟨130, 1, 0⟩, "potential"⟩

/-- A second prior occurrence one month (30 days) later. -/
def priorPot2 : PotentialSub := ⟨"SPOTIFY", 999, ⟨131, 1, 0⟩, "potential"⟩

/-- An e-mail that names the merchant and the bare dollar amount "$12"
but never the two-decimal amount string "12.00". -/
def dollarsOnlyEmail : EmailDoc :=
  ⟨"em1", "Your Netflix receipt", "we charged you $12 for your plan", ⟨130, 3, 0⟩⟩

/-- A cancellation whose effective date (day 5 of month 130) is older
than `sampleActiveSub`'s last applied event. -/
def staleCancelX : ExtractedData :=
  { eventType := "cancellation", serviceName := "Spotify", cancellationDate := some ⟨130, 5, 0⟩ }

/-- E-mail metadata for the stale cancellation, dated day 1 of month
131. -/
def newerEmailB : EmailInfo := ⟨"eB", some ⟨131, 1, 0⟩⟩

/-- A renewal evidence item with a changed price. -/
def renewalX : ExtractedData :=
  { eventType := "renewal", serviceName := "Spotify", amount := some 777 }

/-- E-mail metadata dated day 20 of month 130: older than `newerEmailB`
but newer than `sampleActiveSub`'s last applied event. -/
def midEmailA : EmailInfo := ⟨"eA", some ⟨130, 20, 0⟩⟩

/-- A start evidence item for the C1 witness. -/
def startXw : ExtractedData :=
  { eventType := "start", serviceName := "Hulu", amount := some 1299 }

def emailBw : EmailInfo := ⟨"eBw", some ⟨132, 10, 0⟩⟩

def renewalXw : ExtractedData :=
  { eventType := "renewal", serviceName := "Hulu", amount := some 1399 }

def emailAw : EmailInfo := ⟨"eAw", some ⟨132, 4, 0⟩⟩

/-- The subscription created by applying `startXw`/`emailBw` to an
empty state. -/
def subBw : Subscription :=
  createSubscription "Hulu" 1299 "USD" ⟨132, 10, 0⟩ none none none .active none "eBw" ⟨132, 10, 0⟩

/-- A dated cancellation newer than `sampleActiveSub`'s last applied
event. -/
def laterCancelX : ExtractedData :=
  { eventType := "cancellation", serviceName := "Spotify", cancellationDate := some ⟨133, 1, 0⟩ }

def laterEmailW : EmailInfo := ⟨"eW", some ⟨133, 2, 0⟩⟩

/-- A renewal evidence item used to reactivate `sampleCancelledSub`. -/
def renewalXw5 : ExtractedData :=
  { eventType := "renewal", serviceName := "Netflix", amount := some 1699,
    nextBillingDate := some ⟨134, 1, 0⟩ }

def emailW5 : EmailInfo := ⟨"eR", some ⟨133, 1, 0⟩⟩

/-! ## C4: ledger entries recorded `failed` and subsequent scans -/

/-- C4, counterexample: the claim states that a subsequent scan does not
treat a `failed` ledger entry as already processed.  On the code the
skip set of the scan loop is built from ALL `ProcessedEmail` documents
with no `status` filter, so an e-mail whose only ledger entry has
status `failed` IS skipped (counted `alreadyProcessed`), refuting the
claim at this concrete input. -/
theorem failed_entry_retry_claim_false :
    (⟨"e1", "failed"⟩ : LedgerEntry) ∈ ([⟨"e1", "failed"⟩] : List LedgerEntry) ∧
    scanSkipsEmail [⟨"e1", "failed"⟩] "e1" = true := by
  exact ⟨by decide, by decide⟩

/-- C4, amended: a subsequent scan treats EVERY ledger entry --
`processed`, `skipped`, or `failed` alike -- as already processed and
skips the corresponding e-mail; items recorded `failed` are never
retried by the scan loops. -/
theorem scan_skips_every_ledger_status (entries : List LedgerEntry)
    (en : LedgerEntry) (h : en ∈ entries) :
    scanSkipsEmail entries en.emailId = true := by
  have hmem : en.emailId ∈ processedIdsSet entries :=
    List.mem_map_of_mem (fun en => en.emailId) h
  unfold scanSkipsEmail
  exact List.elem_iff.mpr hmem

/-- C4, witness for the amended theorem at a concrete ledger. -/
theorem scan_skips_every_ledger_status_witness :
    (⟨"e9", "failed"⟩ : LedgerEntry) ∈ ([⟨"e8", "processed"⟩, ⟨"e9", "failed"⟩] : List LedgerEntry) ∧
    scanSkipsEmail [⟨"e8", "processed"⟩, ⟨"e9", "failed"⟩] "e9" = true :=
  ⟨by decide, scan_skips_every_ledger_status _ ⟨"e9", "failed"⟩ (by decide)⟩

/-! ## C10: the read-time projection only touches active subscriptions -/

/-- C10: the renewal-date projection of `getUserSubscriptions` is
applied only to subscriptions with status `active`; a subscription in
any other status (`cancelled` is the only other schema status) is
returned by the read exactly as stored, every field unchanged,
including an overdue or absent `nextRenewalDate`. -/
theorem projection_skips_non_active (now : JDate) (subs : List Subscription)
    (i : Nat) (sub : Subscription) (h : subs[i]? = some sub)
    (hst : sub.status = .cancelled) :
    (listSubscriptions now subs)[i]? = some sub := by
  have hproj : projectSub now sub = sub := by
    unfold projectSub
    rw [hst]
    simp
  unfold listSubscriptions
  rw [List.getElem?_map, h]
  simp [hproj]

/-- C10, witness: a cancelled subscription with an overdue
`nextRenewalDate` passes through the read unchanged. -/
theorem projection_skips_non_active_witness :
    (([{ sampleCancelledSub with nextRenewalDate := some ⟨100, 1, 0⟩ }] : List Subscription)[0]? =
      some { sampleCancelledSub with nextRenewalDate := some ⟨100, 1, 0⟩ }) ∧
    (listSubscriptions ⟨200, 1, 0⟩ [{ sampleCancelledSub with nextRenewalDate := some ⟨100, 1, 0⟩ }])[0]? =
      some { sampleCancelledSub with nextRenewalDate := some ⟨100, 1, 0⟩ } :=
  ⟨by decide, projection_skips_non_active ⟨200, 1, 0⟩ _ 0 _ (by decide) (by decide)⟩

/-! ## C3: the detector's occurrence threshold -/

/-- C3, counterexample: with exactly one gathered prior occurrence (two
total occurrences counting the analysed transaction) the claim demands
`detected = true, occurrences = 2`; the code does not append `asOfDate`
to the gathered dates and requires two PRIOR occurrences, so it returns
`detected = false, frequency = "unknown", occurrences = 1` here. -/
theorem pattern_threshold_claim_false :
    (gatherOccurrences [priorPot1] [] "Spotify" 999 ⟨131, 1, 0⟩).length = 1 ∧
    detectRecurringPattern [priorPot1] [] "Spotify" 999 ⟨131, 1, 0⟩ =
      ⟨false, "unknown", 1⟩ := by
  exact ⟨by decide, by decide⟩

/-- C3, amended: the detector does not append `asOfDate` to the
gathered prior occurrences.  It returns
`detected = false, frequency = "unknown", occurrences = 1` exactly when
there are fewer than 2 gathered PRIOR occurrences (i.e. fewer than 3
total occurrences counting the current one); with 2 or more priors it
returns `detected = true` and `occurrences` equal to the prior count
plus one (the total including the current occurrence). -/
theorem pattern_threshold_amended (pots : List PotentialSub)
    (subs : List Subscription) (m : String) (a : Nat) (d : JDate) :
    ((gatherOccurrences pots subs m a d).length < 2 →
      detectRecurringPattern pots subs m a d = ⟨false, "unknown", 1⟩) ∧
    (2 ≤ (gatherOccurrences pots subs m a d).length →
      (detectRecurringPattern pots subs m a d).detected = true ∧
      (detectRecurringPattern pots subs m a d).occurrences =
        (gatherOccurrences pots subs m a d).length + 1) := by
  constructor
  · intro h
    unfold detectRecurringPattern
    rw [if_neg (by omega)]
  · intro h
    unfold detectRecurringPattern
    rw [if_pos h]
    exact ⟨rfl, rfl⟩

/-- C3, witness for the amended theorem: two priors one month apart. -/
theorem pattern_threshold_amended_witness :
    2 ≤ (gatherOccurrences [priorPot1, priorPot2] [] "Spotify" 999 ⟨132, 1, 0⟩).length ∧
    (detectRecurringPattern [priorPot1, priorPot2] [] "Spotify" 999 ⟨132, 1, 0⟩).detected = true ∧
    (detectRecurringPattern [priorPot1, priorPot2] [] "Spotify" 999 ⟨132, 1, 0⟩).occurrences =
      (gatherOccurrences [priorPot1, priorPot2] [] "Spotify" 999 ⟨132, 1, 0⟩).length + 1 :=
  ⟨by decide, (pattern_threshold_amended [priorPot1, priorPot2] [] "Spotify" 999 ⟨132, 1, 0⟩).2 (by decide)⟩

/-! ## C8: the detector's frequency classification -/

/-- C8, counterexample: the claim classifies the mean gap of the series
WITH `asOfDate` appended.  With two priors 30 days apart analysed 92
days after the second, the series mean is 61 days ("unknown" by the
claim) while the code classifies the priors-only mean of 30 days as
"monthly". -/
theorem frequency_series_claim_false :
    (detectRecurringPattern [priorPot1, priorPot2] [] "Spotify" 999 ⟨134, 1, 0⟩).detected = true ∧
    (detectRecurringPattern [priorPot1, priorPot2] [] "Spotify" 999 ⟨134, 1, 0⟩).frequency = "monthly" ∧
    specClaimedSeriesFrequency [priorPot1, priorPot2] [] "Spotify" 999 ⟨134, 1, 0⟩ = "unknown" := by
  exact ⟨by decide, by decide, by decide⟩

/-- C8, amended: for 2 or more gathered PRIOR occurrences (the current
occurrence date is NOT appended to the series), the detector classifies
the arithmetic mean of the consecutive gaps of the priors -- mean in
[25,35] days is monthly, [350,380] yearly, [6,8] weekly, otherwise
"unknown" -- and reports `detected = true` regardless of the bucket. -/
theorem frequency_classification_amended (pots : List PotentialSub)
    (subs : List Subscription) (m : String) (a : Nat) (d : JDate)
    (h : 2 ≤ (gatherOccurrences pots subs m a d).length) :
    (detectRecurringPattern pots subs m a d).detected = true ∧
    (detectRecurringPattern pots subs m a d).frequency =
      classifyGaps (gapsOf (gatherOccurrences pots subs m a d)).sum
        (gapsOf (gatherOccurrences pots subs m a d)).length := by
  unfold detectRecurringPattern
  rw [if_pos h]
  exact ⟨rfl, rfl⟩

/-- C8, witness for the amended theorem. -/
theorem frequency_classification_amended_witness :
    2 ≤ (gatherOccurrences [priorPot1, priorPot2] [] "Spotify" 999 ⟨133, 1, 0⟩).length ∧
    (detectRecurringPattern [priorPot1, priorPot2] [] "Spotify" 999 ⟨133, 1, 0⟩).detected = true ∧
    (detectRecurringPattern [priorPot1, priorPot2] [] "Spotify" 999 ⟨133, 1, 0⟩).frequency =
      classifyGaps (gapsOf (gatherOccurrences [priorPot1, priorPot2] [] "Spotify" 999 ⟨133, 1, 0⟩)).sum
        (gapsOf (gatherOccurrences [priorPot1, priorPot2] [] "Spotify" 999 ⟨133, 1, 0⟩)).length :=
  ⟨by decide, frequency_classification_amended [priorPot1, priorPot2] [] "Spotify" 999 ⟨133, 1, 0⟩ (by decide)⟩

/-! ## C7: the matcher's amount test -/

/-- C7, counterexample: the claim states an e-mail matches only if it
contains the amount with two decimal places.  `dollarsOnlyEmail`
contains "$12" but not "12.00"; the code's third regex alternative
`\$amount.toFixed(0)` accepts it, refuting the stated iff. -/
theorem matcher_two_decimal_claim_false :
    emailMatchesTransaction "Netflix" 1200 dollarsOnlyEmail = true ∧
    specClaimedEmailMatch "Netflix" 1200 dollarsOnlyEmail = false := by
  exact ⟨by decide, by decide⟩

/-- C7, amended: an e-mail is reported matched if and only if its
case-folded subject+body contains at least one merchant keyword of
length > 2 AND matches one of the three amount patterns
`\$A2 | A2 | \$A0` (`A2` the amount with two decimals, `A0` the amount
rounded to whole dollars prefixed by a dollar sign), in which the
decimal point of `A2` is an unescaped regex dot matching any
character; the match is an exact string/pattern test with no numeric
tolerance band. -/
theorem matcher_amount_patterns_amended (emails : List EmailDoc)
    (m : String) (a : Nat) :
    (matchTransactionWithEmails emails m a).matched =
      emails.any (fun em =>
        ((merchantKeywords m).any
          (fun k => containsChars k (lowerChars (em.subject ++ " " ++ em.text)))) &&
        (containsPattern ('$' :: amountFixed2 a) (lowerChars (em.subject ++ " " ++ em.text)) ||
         containsPattern (amountFixed2 a) (lowerChars (em.subject ++ " " ++ em.text)) ||
         containsPattern ('$' :: amountFixed0 a) (lowerChars (em.subject ++ " " ++ em.text)))) := by
  show (matchTransactionWithEmails emails m a).matched =
    emails.any (fun em => emailMatchesTransaction m a em)
  induction emails with
  | nil => rfl
  | cons em ems ih =>
    unfold matchTransactionWithEmails at ih ⊢
    rw [List.any_cons]
    cases hm : emailMatchesTransaction m a em with
    | true =>
      rw [List.find?_cons_of_pos _ hm]
      simp
    | false =>
      rw [List.find?_cons_of_neg _ (by simp [hm])]
      rw [ih]
      simp

/-! ## C1: monotonic ordering / the staleness guard -/

/-- C1, counterexample: the claim quantifies over ANY B, but when B is
itself discarded (here: a stale cancellation, which the processor drops
by its own date comparison without recording B's source date), a
non-cancellation A that is older than B but newer than the state's last
applied event IS applied, so "apply B then A" differs from "apply B
only". -/
theorem monotonic_ordering_claim_false :
    jlt ⟨130, 20, 0⟩ ⟨131, 1, 0⟩ ∧
    renewalX.eventType ≠ "cancellation" ∧
    applyState ⟨131, 2, 0⟩ (some sampleActiveSub) staleCancelX newerEmailB = some sampleActiveSub ∧
    applyState ⟨131, 2, 0⟩
        (applyState ⟨131, 2, 0⟩ (some sampleActiveSub) staleCancelX newerEmailB)
        renewalX midEmailA ≠
      applyState ⟨131, 2, 0⟩ (some sampleActiveSub) staleCancelX newerEmailB := by
  exact ⟨by decide, by decide, by decide, by decide⟩

/-- C1, amended: the ordering property holds provided applying B
actually recorded B's source date on the resulting subscription (which
a stale cancellation or unknown-type B does not): if the state after B
is a subscription whose `sourceEmailDate` is B's source date `tB`, and
A is non-cancellation evidence with a source date older than `tB`, the
processor discards A and returns the post-B subscription unchanged. -/
theorem monotonic_ordering_amended (now : JDate) (s0 : Option Subscription)
    (xB : ExtractedData) (eB : EmailInfo) (subB : Subscription)
    (xA : ExtractedData) (eA : EmailInfo) (tA tB : JDate)
    (_happB : processSubscriptionData now s0 xB eB = .ok subB)
    (hrec : subB.sourceEmailDate = some tB)
    (hdA : eA.date = some tA)
    (hold : jlt tA tB)
    (hnc : xA.eventType ≠ "cancellation") :
    processSubscriptionData now (some subB) xA eA = .ok subB := by
  have hguard : staleGuard xA (eA.date.getD now) subB = true := by
    simp [staleGuard, hrec, hdA, jltB, hnc]
    exact hold
  simp only [processSubscriptionData]
  rw [hguard]
  simp

/-- C1, witness for the amended theorem: a start B recorded on an empty
state, then an older renewal A, which is discarded. -/
theorem monotonic_ordering_witness :
    processSubscriptionData ⟨132, 11, 0⟩ none startXw emailBw = .ok subBw ∧
    subBw.sourceEmailDate = some ⟨132, 10, 0⟩ ∧
    emailAw.date = some ⟨132, 4, 0⟩ ∧
    jlt ⟨132, 4, 0⟩ ⟨132, 10, 0⟩ ∧
    renewalXw.eventType ≠ "cancellation" ∧
    processSubscriptionData ⟨132, 11, 0⟩ (some subBw) renewalXw emailAw = .ok subBw :=
  ⟨by rfl, by rfl, by rfl, by decide, by decide,
    monotonic_ordering_amended ⟨132, 11, 0⟩ none startXw emailBw subBw renewalXw emailAw
      ⟨132, 4, 0⟩ ⟨132, 10, 0⟩ (by rfl) (by rfl) (by rfl) (by decide) (by decide)⟩

/-! ## C2: cancellation staleness comparison -/

/-- C2, counterexample: the claim says a cancellation without a
`cancellationDate` falls back to its source date for the staleness
comparison.  Here the cancellation's source date (day 5) is older than
the subscription's last applied event (day 10), so the claim demands it
be discarded -- but the code performs no comparison at all when
`cancellationDate` is absent and cancels the subscription. -/
theorem cancellation_fallback_claim_false :
    cancellationNoDateX.cancellationDate = none ∧
    jlt ⟨130, 5, 0⟩ ⟨130, 10, 0⟩ ∧
    sampleActiveSub.sourceEmailDate = some ⟨130, 10, 0⟩ ∧
    applyState ⟨130, 20, 0⟩ (some sampleActiveSub) cancellationNoDateX olderEmailE ≠
      some sampleActiveSub ∧
    (applyState ⟨130, 20, 0⟩ (some sampleActiveSub) cancellationNoDateX olderEmailE).map
        (fun s => s.status) = some .cancelled := by
  exact ⟨by rfl, by decide, by rfl, by decide, by decide⟩

/-- C2, amended: the staleness comparison of a cancellation on an
existing subscription happens only when BOTH `evidence.cancellationDate`
and the subscription's last applied event date are present -- there is
no fallback to the evidence's source date.  When present and older, the
event is discarded; otherwise (including whenever `cancellationDate` is
absent) the subscription is cancelled, with `cancellationDate` and
`accessEndDate` set to `evidence.cancellationDate` when present and to
the processing-time clock otherwise. -/
theorem cancellation_comparison_amended (now : JDate) (sub : Subscription)
    (x : ExtractedData) (e : EmailInfo) (hc : x.eventType = "cancellation") :
    processSubscriptionData now (some sub) x e =
      (if (match sub.sourceEmailDate, x.cancellationDate with
           | some d, some c => jltB c d
           | _, _ => false) then
        Except.ok sub
      else
        Except.ok (cancelSubscription sub (x.cancellationDate.getD now)
          (x.cancellationDate.getD now) e.id (e.date.getD now))) := by
  have hg : staleGuard x (e.date.getD now) sub = false := by
    unfold staleGuard
    rw [hc]
    cases sub.sourceEmailDate <;> simp
  simp only [processSubscriptionData]
  rw [hg]
  simp [hc]

/-- C2, witness for the amended theorem at a dated, non-stale
cancellation. -/
theorem cancellation_comparison_witness :
    laterCancelX.eventType = "cancellation" ∧
    processSubscriptionData ⟨133, 3, 0⟩ (some sampleActiveSub) laterCancelX laterEmailW =
      (if (match sampleActiveSub.sourceEmailDate, laterCancelX.cancellationDate with
           | some d, some c => jltB c d
           | _, _ => false) then
        Except.ok sampleActiveSub
      else
        Except.ok (cancelSubscription sampleActiveSub (laterCancelX.cancellationDate.getD ⟨133, 3, 0⟩)
          (laterCancelX.cancellationDate.getD ⟨133, 3, 0⟩) laterEmailW.id
          (laterEmailW.date.getD ⟨133, 3, 0⟩))) :=
  ⟨rfl, cancellation_comparison_amended ⟨133, 3, 0⟩ sampleActiveSub laterCancelX laterEmailW rfl⟩

/-! ## C5: reactivation by renewal -/

/-- C5: a renewal applied to a cancelled subscription, when it passes
the staleness guard, reactivates it: status becomes `active`,
`cancellationDate` and `accessEndDate` are cleared, and
price/currency/nextRenewalDate/planName are updated from the event
(with the JS `||` fallbacks of the source); consequently a
cancel-then-renewal sequence ends `active` with `cancellationDate =
null`. -/
theorem reactivation_renewal (now : JDate) :
    (∀ (sub : Subscription) (x : ExtractedData) (e : EmailInfo),
      sub.status = .cancelled → x.eventType = "renewal" →
      (∀ d, sub.sourceEmailDate = some d → ¬ jlt (e.date.getD now) d) →
      processSubscriptionData now (some sub) x e = .ok { sub with
        status := .active, cancellationDate := none, accessEndDate := none,
        price := jsOrNat x.amount sub.price, currency := jsOrStr x.currency sub.currency,
        nextRenewalDate := x.nextBillingDate, planName := jsOrOptStr x.planName sub.planName,
        sourceEmailId := some e.id, sourceEmailDate := some (e.date.getD now) }) ∧
    (∀ (s0 : Option Subscription) (xc xr : ExtractedData) (ec er : EmailInfo)
        (subC : Subscription),
      xc.eventType = "cancellation" → applyState now s0 xc ec = some subC →
      subC.status = .cancelled → xr.eventType = "renewal" →
      (∀ d, subC.sourceEmailDate = some d → ¬ jlt (er.date.getD now) d) →
      ∃ subR, applyState now (some subC) xr er = some subR ∧
        subR.status = .active ∧ subR.cancellationDate = none) := by
  have hA : ∀ (sub : Subscription) (x : ExtractedData) (e : EmailInfo),
      sub.status = .cancelled → x.eventType = "renewal" →
      (∀ d, sub.sourceEmailDate = some d → ¬ jlt (e.date.getD now) d) →
      processSubscriptionData now (some sub) x e = .ok { sub with
        status := .active, cancellationDate := none, accessEndDate := none,
        price := jsOrNat x.amount sub.price, currency := jsOrStr x.currency sub.currency,
        nextRenewalDate := x.nextBillingDate, planName := jsOrOptStr x.planName sub.planName,
        sourceEmailId := some e.id, sourceEmailDate := some (e.date.getD now) } := by
    intro sub x e hst hev hg
    have hguard : staleGuard x (e.date.getD now) sub = false := by
      unfold staleGuard
      cases hsd : sub.sourceEmailDate with
      | none => rfl
      | some d =>
        have hnl := hg d hsd
        simp [jltB, hnl]
    simp only [processSubscriptionData]
    rw [hguard]
    simp [hev, hst, updateSubscription]
  refine ⟨hA, ?_⟩
  intro s0 xc xr ec er subC h1 h2 h3 h4 h5
  refine ⟨{ subC with
    status := .active, cancellationDate := none, accessEndDate := none,
    price := jsOrNat xr.amount subC.price, currency := jsOrStr xr.currency subC.currency,
    nextRenewalDate := xr.nextBillingDate, planName := jsOrOptStr xr.planName subC.planName,
    sourceEmailId := some er.id, sourceEmailDate := some (er.date.getD now) }, ?_, rfl, rfl⟩
  unfold applyState
  rw [hA subC xr er h3 h4 h5]

/-- C5, witness: `sampleCancelledSub` reactivated by a newer renewal. -/
theorem reactivation_renewal_witness :
    sampleCancelledSub.status = .cancelled ∧
    renewalXw5.eventType = "renewal" ∧
    processSubscriptionData ⟨133, 2, 0⟩ (some sampleCancelledSub) renewalXw5 emailW5 =
      .ok { sampleCancelledSub with
        status := .active, cancellationDate := none, accessEndDate := none,
        price := jsOrNat renewalXw5.amount sampleCancelledSub.price,
        currency := jsOrStr renewalXw5.currency sampleCancelledSub.currency,
        nextRenewalDate := renewalXw5.nextBillingDate,
        planName := jsOrOptStr renewalXw5.planName sampleCancelledSub.planName,
        sourceEmailId := some emailW5.id,
        sourceEmailDate := some (emailW5.date.getD ⟨133, 2, 0⟩) } :=
  ⟨rfl, rfl, (reactivation_renewal ⟨133, 2, 0⟩).1 sampleCancelledSub renewalXw5 emailW5 rfl rfl
    (by
      intro d hd
      rw [show sampleCancelledSub.sourceEmailDate = some ⟨130, 12, 0⟩ from rfl] at hd
      injection hd with hd2
      subst hd2
      decide)⟩

/-! ## C9: unknown event types -/

/-- C9, counterexample: the staleness guard runs BEFORE the switch and
does not exclude unknown event types, so unknown-type evidence that is
older than the subscription's last applied event is returned as a
silent no-op instead of throwing the claimed error. -/
theorem unknown_event_claim_false :
    ("upgrade" ∉ (["start", "renewal", "cancellation", "change"] : List String)) ∧
    jlt ⟨130, 5, 0⟩ ⟨130, 10, 0⟩ ∧
    processSubscriptionData ⟨130, 20, 0⟩ (some sampleActiveSub) unknownTypeX olderEmailE =
      .ok sampleActiveSub := by
  exact ⟨by decide, by decide, by rfl⟩

/-- C9, amended: for evidence whose event type is none of
start/renewal/cancellation/change, the processor never creates or
modifies a subscription -- the state is unchanged; unless the evidence
is silently discarded by the staleness guard (an existing subscription
whose last applied event is newer than the evidence date), it throws
`Unknown event type: <type>`. -/
theorem unknown_event_amended (now : JDate) (s : Option Subscription)
    (x : ExtractedData) (e : EmailInfo)
    (hx : x.eventType ∉ (["start", "renewal", "cancellation", "change"] : List String)) :
    applyState now s x e = s ∧
    ((∀ sub, s = some sub → staleGuard x (e.date.getD now) sub = false) →
      processSubscriptionData now s x e =
        .error ("Unknown event type: " ++ x.eventType)) := by
  simp only [List.mem_cons, List.not_mem_nil, or_false, not_or] at hx
  obtain ⟨h1, h2, h3, h4⟩ := hx
  cases s with
  | none =>
    constructor
    · unfold applyState processSubscriptionData
      simp [h1, h2, h3, h4]
    · intro _
      unfold processSubscriptionData
      simp [h1, h2, h3, h4]
  | some sub =>
    by_cases hgt : staleGuard x (e.date.getD now) sub = true
    · constructor
      · unfold applyState processSubscriptionData
        simp [hgt]
      · intro hng
        rw [hng sub rfl] at hgt
        cases hgt
    · have hgf : staleGuard x (e.date.getD now) sub = false := by
        exact Bool.not_eq_true _ ▸ Bool.eq_false_iff.mpr (fun hh => hgt hh)
      constructor
      · unfold applyState processSubscriptionData
        simp [hgf, h1, h2, h3, h4]
      · intro _
        unfold processSubscriptionData
        simp [hgf, h1, h2, h3, h4]

/-- C9, witness: an unknown event type on an empty state throws and
leaves the state empty. -/
theorem unknown_event_witness :
    ("upgrade" ∉ (["start", "renewal", "cancellation", "change"] : List String)) ∧
    applyState ⟨130, 20, 0⟩ none unknownTypeX olderEmailE = none ∧
    processSubscriptionData ⟨130, 20, 0⟩ none unknownTypeX olderEmailE =
      .error ("Unknown event type: " ++ unknownTypeX.eventType) := by
  have h := unknown_event_amended ⟨130, 20, 0⟩ none unknownTypeX olderEmailE (by decide)
  exact ⟨by decide, h.1, h.2 (fun sub hs => by cases hs)⟩

/-! ## C6: termination and accuracy of the renewal projection

Helper lemmas about the calendar arithmetic of the projection loop. -/

theorem daysInMonth_bounds (am : Nat) : 28 ≤ daysInMonth am ∧ daysInMonth am ≤ 31 := by
  unfold daysInMonth
  split_ifs <;> omega

theorem monthStart_succ (n : Nat) : monthStart (n + 1) = monthStart n + daysInMonth n := rfl

theorem monthStart_add_le (a k : Nat) : monthStart a + 28 * k ≤ monthStart (a + k) := by
  induction k with
  | zero => simp
  | succ n ihn =>
    have h1 := (daysInMonth_bounds (a + n)).1
    have h2 : monthStart (a + (n + 1)) = monthStart (a + n) + daysInMonth (a + n) := rfl
    omega

theorem addMonth_ms (p : JDate) : (addMonthsJS p 1).ms = p.ms := by
  unfold addMonthsJS fixDay
  split_ifs <;> rfl

theorem addMonth_valid (p : JDate) (hv : validJ p) : validJ (addMonthsJS p 1) := by
  obtain ⟨h1, h2, h3⟩ := hv
  have hb0 := daysInMonth_bounds p.am
  have hb1 := daysInMonth_bounds (p.am + 1)
  have hb2 := daysInMonth_bounds (p.am + 1 + 1)
  unfold addMonthsJS fixDay
  split_ifs with hov
  · exact ⟨h1, hov, h3⟩
  · refine ⟨?_, ?_, h3⟩
    · show 1 ≤ p.d - daysInMonth (p.am + 1)
      omega
    · show p.d - daysInMonth (p.am + 1) ≤ daysInMonth (p.am + 1 + 1)
      omega

theorem addMonth_dayNumber (p : JDate) (hv : validJ p) :
    dayNumber (addMonthsJS p 1) = dayNumber p + daysInMonth p.am := by
  obtain ⟨h1, h2, _⟩ := hv
  have hs1 : monthStart (p.am + 1) = monthStart p.am + daysInMonth p.am := rfl
  have hs2 : monthStart (p.am + 1 + 1) = monthStart (p.am + 1) + daysInMonth (p.am + 1) := rfl
  unfold addMonthsJS fixDay dayNumber
  split_ifs with hov
  · show monthStart (p.am + 1) + (p.d - 1) =
      monthStart p.am + (p.d - 1) + daysInMonth p.am
    omega
  · show monthStart (p.am + 1 + 1) + (p.d - daysInMonth (p.am + 1) - 1) =
      monthStart p.am + (p.d - 1) + daysInMonth p.am
    omega

theorem toMs_addMonth (p : JDate) (hv : validJ p) :
    toMs (addMonthsJS p 1) = toMs p + daysInMonth p.am * dayMs := by
  unfold toMs
  rw [addMonth_dayNumber p hv, addMonth_ms]
  ring

theorem stepRenewal_monthly (p : JDate) : stepRenewal "monthly" p = addMonthsJS p 1 := rfl

theorem rollForward_stop (freq : String) (now : JDate) (fuel : Nat) (p : JDate)
    (h : ¬ jlt p now) : rollForward freq now fuel p = p := by
  cases fuel with
  | zero => rfl
  | succ f =>
    unfold rollForward
    rw [if_neg (by simpa [jltB] using h)]

theorem rollForward_iterate (freq : String) (now : JDate) :
    ∀ (fuel : Nat) (p : JDate), ∃ k, k ≤ fuel ∧
      rollForward freq now fuel p = (stepRenewal freq)^[k] p := by
  intro fuel
  induction fuel with
  | zero => exact fun p => ⟨0, Nat.le_refl 0, rfl⟩
  | succ f ih =>
    intro p
    unfold rollForward
    by_cases h : jltB p now = true
    · rw [if_pos h]
      obtain ⟨k, hk, he⟩ := ih (stepRenewal freq p)
      exact ⟨k + 1, by omega, by rw [he, Function.iterate_succ_apply]⟩
    · rw [if_neg h]
      exact ⟨0, by omega, rfl⟩

theorem rollForward_monthly_overshoot (now : JDate) :
    ∀ (fuel : Nat) (p : JDate), validJ p → jlt p now →
      ¬ jlt (rollForward "monthly" now fuel p) now →
      toMs (rollForward "monthly" now fuel p) < toMs now + 31 * dayMs := by
  intro fuel
  induction fuel with
  | zero =>
    intro p _ hlt hnlt
    unfold rollForward at hnlt
    exact absurd hlt hnlt
  | succ f ih =>
    intro p hv hlt hnlt
    unfold rollForward at hnlt ⊢
    rw [if_pos (by simpa [jltB] using hlt)] at hnlt ⊢
    rw [stepRenewal_monthly] at hnlt ⊢
    by_cases h2 : jlt (addMonthsJS p 1) now
    · exact ih (addMonthsJS p 1) (addMonth_valid p hv) h2 hnlt
    · rw [rollForward_stop "monthly" now f (addMonthsJS p 1) h2]
      have h3 := toMs_addMonth p hv
      have h4 := (daysInMonth_bounds p.am).2
      have h5 : toMs p < toMs now := hlt
      have h6 : daysInMonth p.am * dayMs ≤ 31 * dayMs :=
        Nat.mul_le_mul_right dayMs h4
      omega

theorem rollForward_monthly_reach (now : JDate) (h120 : 120 ≤ now.am)
    (hnv : validJ now) (hsd : now.d ≤ daysInMonth (now.am - 120)) :
    ∀ (fuel : Nat) (p : JDate), validJ p → p.ms = now.ms →
      ((p.am + fuel = now.am ∧ p.d = now.d) ∨
       (p.am + fuel = now.am + 1 ∧ 1 ≤ p.d ∧ p.d ≤ 3 ∧ 29 ≤ now.d ∧ now.d ≤ p.d + 30)) →
      ¬ jlt (rollForward "monthly" now fuel p) now := by
  have hfeb : 29 ≤ now.d → 30 ≤ daysInMonth now.am := by
    intro hnd
    have h29 : 29 ≤ daysInMonth now.am := le_trans hnd hnv.2.1
    rcases Nat.lt_or_ge (daysInMonth now.am) 30 with hlt29 | hge
    · exfalso
      have h29e : daysInMonth now.am = 29 := by omega
      have hkey : now.am % 12 = 1 ∧ isLeapYear (now.am / 12) = true := by
        unfold daysInMonth at h29e
        split_ifs at h29e with hA hB hC
        · exact ⟨hA, hB⟩
        · omega
        · omega
        · omega
      obtain ⟨hm1, hleap⟩ := hkey
      have hy4 : now.am / 12 % 4 = 0 := by
        unfold isLeapYear at hleap
        simp only [Bool.and_eq_true, decide_eq_true_eq] at hleap
        exact hleap.1
      have hm1s : (now.am - 120) % 12 = 1 := by omega
      have hy's : (now.am - 120) / 12 = now.am / 12 - 10 := by omega
      have hnl : isLeapYear ((now.am - 120) / 12) = false := by
        rw [hy's]
        unfold isLeapYear
        have hne : (now.am / 12 - 10) % 4 ≠ 0 := by omega
        simp [hne]
      have hdm : daysInMonth (now.am - 120) = 28 := by
        unfold daysInMonth
        simp [hm1s, hnl]
      omega
    · exact hge
  intro fuel
  induction fuel with
  | zero =>
    intro p hv hms hinv
    unfold rollForward
    rcases hinv with ⟨ham, hd⟩ | ⟨ham, hd1, hd3, hnd, hub⟩
    · simp only [Nat.add_zero] at ham
      unfold jlt toMs dayNumber dayMs
      rw [ham, hd, hms]
      omega
    · simp only [Nat.add_zero] at ham
      have h30 := hfeb hnd
      have hms1 : monthStart (now.am + 1) = monthStart now.am + daysInMonth now.am := rfl
      unfold jlt toMs dayNumber dayMs
      rw [ham, hms]
      rw [hms1]
      have hd1' : 1 ≤ now.d := hnv.1
      intro hcon
      omega
  | succ f ih =>
    intro p hv hms hinv
    unfold rollForward
    by_cases hpl : jltB p now = true
    · rw [if_pos hpl]
      rw [stepRenewal_monthly]
      apply ih (addMonthsJS p 1) (addMonth_valid p hv) (by rw [addMonth_ms]; exact hms)
      obtain ⟨hv1, hv2, _⟩ := hv
      have hb0 := daysInMonth_bounds p.am
      have hb1 := daysInMonth_bounds (p.am + 1)
      rcases hinv with ⟨ham, hd⟩ | ⟨ham, hd1, hd3, hnd, hub⟩
      · unfold addMonthsJS fixDay
        split_ifs with hov
        · exact Or.inl ⟨by simp only; omega, by simp only; omega⟩
        · refine Or.inr ⟨by simp only; omega, by simp only; omega, by simp only; omega,
            by omega, by simp only; omega⟩
      · have hov : p.d ≤ daysInMonth (p.am + 1) := by omega
        unfold addMonthsJS fixDay
        rw [if_pos hov]
        exact Or.inr ⟨by simp only; omega, hd1, hd3, hnd, hub⟩
    · rw [if_neg hpl]
      simpa [jltB] using hpl

/-- C6: (i) the catch-up loop of the renewal projector is the
fuel-bounded iteration of the per-frequency step -- it performs at most
`fuel` steps (120 for the backfill-from-startDate path, 24 for the
overdue-nextRenewalDate path), so it always terminates; (ii) the
backfill path of `projectSub` applies exactly the 120-capped loop from
`startDate`; (iii) the overdue path applies exactly the 24-capped loop
from the stored `nextRenewalDate`; (iv) for a start date exactly 10
years (120 months) before `now` with monthly frequency, the projected
date is on or after `now` and within one month-period (31 days) of
`now`. -/
theorem projection_termination (freq : String) (now : JDate) :
    (∀ (fuel : Nat) (p : JDate), ∃ k, k ≤ fuel ∧
      rollForward freq now fuel p = (stepRenewal freq)^[k] p) ∧
    (∀ s : Subscription, s.status = .active → s.nextRenewalDate = none →
      (projectSub now s).nextRenewalDate =
        some (rollForward s.frequency now 120 s.startDate)) ∧
    (∀ (s : Subscription) (r : JDate), s.status = .active →
      s.nextRenewalDate = some r → jlt r now →
      (projectSub now s).nextRenewalDate =
        some (rollForward s.frequency now 24 r)) ∧
    (validJ now → 120 ≤ now.am → now.d ≤ daysInMonth (now.am - 120) →
      ¬ jlt (rollForward "monthly" now 120 ⟨now.am - 120, now.d, now.ms⟩) now ∧
      toMs (rollForward "monthly" now 120 ⟨now.am - 120, now.d, now.ms⟩) <
        toMs now + 31 * dayMs) := by
  refine ⟨rollForward_iterate freq now, ?_, ?_, ?_⟩
  · intro s hs hn
    unfold projectSub
    rw [if_neg (by simp [hs]), hn]
  · intro s r hs hn hlt
    unfold projectSub
    rw [if_neg (by simp [hs]), hn]
    dsimp only
    rw [if_pos (by simpa [jltB] using hlt)]
  · intro hnv h120 hsd
    have hvs : validJ (⟨now.am - 120, now.d, now.ms⟩ : JDate) := ⟨hnv.1, hsd, hnv.2.2⟩
    have hstart_lt : jlt ⟨now.am - 120, now.d, now.ms⟩ now := by
      have hle := monthStart_add_le (now.am - 120) 120
      have heq : now.am - 120 + 120 = now.am := by omega
      rw [heq] at hle
      show toMs ⟨now.am - 120, now.d, now.ms⟩ < toMs now
      unfold toMs dayNumber dayMs
      dsimp only
      omega
    have hreach := rollForward_monthly_reach now h120 hnv hsd 120
      ⟨now.am - 120, now.d, now.ms⟩ hvs rfl
      (Or.inl ⟨by show now.am - 120 + 120 = now.am; omega, rfl⟩)
    have hover := rollForward_monthly_overshoot now 120
      ⟨now.am - 120, now.d, now.ms⟩ hvs hstart_lt hreach
    exact ⟨hreach, hover⟩

/-- C6, witness: `now` = day 15 of absolute month 245 (June of year
20); the start date 120 months earlier projects, under the monthly
120-capped loop, to a date on or after `now` and within 31 days of
it. -/
theorem projection_termination_witness :
    validJ ⟨245, 15, 0⟩ ∧ 120 ≤ (245 : Nat) ∧
    (15 : Nat) ≤ daysInMonth (245 - 120) ∧
    ¬ jlt (rollForward "monthly" ⟨245, 15, 0⟩ 120 ⟨125, 15, 0⟩) ⟨245, 15, 0⟩ ∧
    toMs (rollForward "monthly" ⟨245, 15, 0⟩ 120 ⟨125, 15, 0⟩) <
      toMs ⟨245, 15, 0⟩ + 31 * dayMs :=
  ⟨by decide, by decide, by decide,
    ((projection_termination "monthly" ⟨245, 15, 0⟩).2.2.2 (by decide) (by decide) (by decide)).1,
    ((projection_termination "monthly" ⟨245, 15, 0⟩).2.2.2 (by decide) (by decide) (by decide)).2⟩
